import Mathlib

/-!
The item participant and the order coordinator of tcc-demo.

A shallow embedding of `item/main.go` (the item participant of a
Try/Confirm/Cancel purchase workflow) and of `order/main.go` (its coordinator),
followed by theorems about the embedded code.

Modelling conventions, shared by both services:

* A MySQL table is the list of its rows in primary-key order.  An auto-increment
  primary key of a new row is one more than the largest key present.
* `int64` / `INT` values are `Int`; no statement of the program comes near the
  range limits, so wrap-around is not modelled.
* A `database/sql` transaction works on a copy of the database: `tx.Commit()`
  publishes the copy, and a `return` that is reached before the commit runs the
  deferred `tx.Rollback()`, which discards it.
* Every statement that can return an error has a boolean in a fault record; when
  it is set the statement fails with a non-duplicate error and has no effect.
-/

set_option autoImplicit false

namespace Item

/-! ## Data model of `item/main.go` -/

/-- The Go type `status` (`type status int`). -/
abbrev status := Int

/-- The constant `statusTried` (`iota` = 0). -/
def statusTried : status := 0

/-- The constant `statusCanceled` (1). -/
def statusCanceled : status := 1

/-- The constant `statusConfirmed` (2). -/
def statusConfirmed : status := 2

/-- The Go struct `bizData`, the decoded request body. -/
structure bizData where
  OrderID : Int
  UserID : Int
  ItemID : Int
  Price : Int
deriving DecidableEq, Repr

/-- The Go struct `event`; also a row of the table `event(id, biz_id, status)`. -/
structure event where
  ID : Int
  BizID : Int
  Status : status
deriving DecidableEq, Repr

/-- A row of the table `item(id, amount)`. -/
structure ItemRow where
  id : Int
  amount : Int
deriving DecidableEq, Repr

/-- A row of the table `item_tmp(biz_id, amount)`. -/
structure ItemTmpRow where
  biz_id : Int
  amount : Int
deriving DecidableEq, Repr

/-- The database behind `server.db`: the three tables of the item participant. -/
structure DB where
  event : List event
  item : List ItemRow
  item_tmp : List ItemTmpRow
deriving DecidableEq, Repr

/-- The error a statement returns: MySQL error 1062 (duplicate key) or another. -/
inductive SqlErr where
  | duplicate
  | other
deriving DecidableEq, Repr

/-- The function `isDup`: the error is a MySQL error numbered `duplicateErrorNumber`. -/
def isDup : SqlErr → Bool
  | .duplicate => true
  | .other => false

/-- Which statements of a handler run fail with a non-duplicate error. -/
structure Faults where
  begin : Bool := false
  selectEvent : Bool := false
  insertEvent : Bool := false
  updateItem : Bool := false
  insertItemTmp : Bool := false
  deleteItemTmp : Bool := false
  updateEvent : Bool := false
  commit : Bool := false
deriving DecidableEq, Repr

/-- No statement fails. -/
def noFaults : Faults := {}

/-- What a handler did to its `http.ResponseWriter`: the status it passed to
`WriteHeader`, if it called it.  No handler of this program calls it. -/
structure ResponseWriter where
  wroteHeader : Option Nat := none
deriving DecidableEq, Repr

/-- The status line `net/http` sends when the handler returns: the written
status, and 200 when the handler wrote nothing. -/
def statusCode (w : ResponseWriter) : Nat :=
  w.wroteHeader.getD 200

/-! ## SQL statements -/

/-- The auto-increment key of the next `event` row. -/
def nextEventID (rows : List event) : Int :=
  rows.foldr (fun e m => max e.ID m) 0 + 1

/-- The statement `insert into event(biz_id, status) values(?,?)`; `biz_id` is a
unique key. -/
def insertEvent (fault : Bool) (bizID : Int) (st : status) (tx : DB) : Except SqlErr DB :=
  if fault then .error .other
  else if tx.event.any (fun e => e.BizID == bizID) then .error .duplicate
  else .ok { tx with event := tx.event ++ [⟨nextEventID tx.event, bizID, st⟩] }

/-- What `update item set amount = amount - ? where id = ? and amount >= ?`
does to one row. -/
def decreaseRow (n : Int) (itemID : Int) (r : ItemRow) : ItemRow :=
  if r.id = itemID ∧ r.amount ≥ n then { r with amount := r.amount - n } else r

/-- What `update item set amount = amount + ? where id = ?` does to one row. -/
def increaseRow (n : Int) (itemID : Int) (r : ItemRow) : ItemRow :=
  if r.id = itemID then { r with amount := r.amount + n } else r

/-- The statement `update item set amount = amount - ? where id = ? and amount >= ?`.  A row
that does not pass the `where` clause is left alone; that is not an error. -/
def decreaseItem (fault : Bool) (n : Int) (itemID : Int) (tx : DB) : Except SqlErr DB :=
  if fault then .error .other
  else .ok { tx with item := tx.item.map (decreaseRow n itemID) }

/-- The statement `update item set amount = amount + ? where id = ?`. -/
def increaseItem (fault : Bool) (n : Int) (itemID : Int) (tx : DB) : Except SqlErr DB :=
  if fault then .error .other
  else .ok { tx with item := tx.item.map (increaseRow n itemID) }

/-- The statement `insert into item_tmp(biz_id, amount) values(?,?)`; `biz_id` is
the primary key. -/
def insertItemTmp (fault : Bool) (bizID : Int) (n : Int) (tx : DB) : Except SqlErr DB :=
  if fault then .error .other
  else if tx.item_tmp.any (fun r => r.biz_id == bizID) then .error .duplicate
  else .ok { tx with item_tmp := tx.item_tmp ++ [⟨bizID, n⟩] }

/-- The statement `delete from item_tmp where biz_id = ?`. -/
def deleteItemTmp (fault : Bool) (bizID : Int) (tx : DB) : Except SqlErr DB :=
  if fault then .error .other
  else .ok { tx with item_tmp := tx.item_tmp.filter fun r => r.biz_id != bizID }

/-- The statement `update event set status = ? where id = ?`. -/
def updateEvent (fault : Bool) (st : status) (id : Int) (tx : DB) : Except SqlErr DB :=
  if fault then .error .other
  else .ok { tx with event := tx.event.map fun e =>
    if e.ID = id then { e with Status := st } else e }

/-- The outcome of `QueryRow(...).Scan(...)`. -/
inductive ScanResult where
  | row (e : event)
  | errNoRows
  | err
deriving DecidableEq, Repr

/-- The query `select id,biz_id, status from event where biz_id = ? for update`,
scanned into an `event`. -/
def selectEvent (fault : Bool) (bizID : Int) (tx : DB) : ScanResult :=
  if fault then .err
  else match tx.event.find? (fun e => e.BizID == bizID) with
    | some e => .row e
    | none => .errNoRows

/-- The call `tx.Commit()`: the transaction's copy becomes the database, unless the
commit fails, in which case the database stays as it was. -/
def commit (fault : Bool) (db tx : DB) : DB :=
  if fault then db else tx

/-! ## The three handlers -/

/-- The handler `server.try`.  `body` is `none` when the request body does not
decode.  The result is the database after the handler and what the handler
wrote to the response. -/
def server_try (f : Faults) (body : Option bizData) (db : DB) : DB × ResponseWriter :=
  let w : ResponseWriter := {}
  match body with
  | none => (db, w)
  | some b =>
    if f.begin then (db, w) else
    match insertEvent f.insertEvent b.OrderID statusTried db with
    | .error e => if isDup e then (db, w) else (db, w)
    | .ok tx1 =>
    match decreaseItem f.updateItem 1 b.ItemID tx1 with
    | .error _ => (db, w)
    | .ok tx2 =>
    match insertItemTmp f.insertItemTmp b.OrderID 1 tx2 with
    | .error _ => (db, w)
    | .ok tx3 => (commit f.commit db tx3, w)

/-- The handler `server.cancel`. -/
def server_cancel (f : Faults) (body : Option bizData) (db : DB) : DB × ResponseWriter :=
  let w : ResponseWriter := {}
  match body with
  | none => (db, w)
  | some b =>
    if f.begin then (db, w) else
    match selectEvent f.selectEvent b.OrderID db with
    | .errNoRows =>
      match insertEvent f.insertEvent b.OrderID statusCanceled db with
      | .error _ => (db, w)
      | .ok _ => (db, w)
    | .err => (db, w)
    | .row ev =>
    if ev.Status ≠ statusTried then (db, w) else
    match deleteItemTmp f.deleteItemTmp b.OrderID db with
    | .error _ => (db, w)
    | .ok tx1 =>
    match increaseItem f.updateItem 1 b.ItemID tx1 with
    | .error _ => (db, w)
    | .ok tx2 =>
    match updateEvent f.updateEvent statusCanceled ev.ID tx2 with
    | .error _ => (db, w)
    | .ok tx3 => (commit f.commit db tx3, w)

/-- The handler `server.confirm`. -/
def server_confirm (f : Faults) (body : Option bizData) (db : DB) : DB × ResponseWriter :=
  let w : ResponseWriter := {}
  match body with
  | none => (db, w)
  | some b =>
    if f.begin then (db, w) else
    match selectEvent f.selectEvent b.OrderID db with
    | .errNoRows => (db, w)
    | .err => (db, w)
    | .row ev =>
    if ev.Status ≠ statusTried then (db, w) else
    match deleteItemTmp f.deleteItemTmp b.OrderID db with
    | .error _ => (db, w)
    | .ok tx1 =>
    match increaseItem f.updateItem 1 b.ItemID tx1 with
    | .error _ => (db, w)
    | .ok tx2 =>
    match updateEvent f.updateEvent statusConfirmed ev.ID tx2 with
    | .error _ => (db, w)
    | .ok tx3 => (commit f.commit db tx3, w)

/-- The `item.amount` of the item `itemID`, if the row exists. -/
def amountOf (db : DB) (itemID : Int) : Option Int :=
  (db.item.find? (fun r => r.id == itemID)).map (fun r => r.amount)

/-- The participant event recorded for `bizID`, if any. -/
def eventOf (db : DB) (bizID : Int) : Option event :=
  db.event.find? (fun e => e.BizID == bizID)

/-- The `item_tmp` rows of `bizID`. -/
def tmpOf (db : DB) (bizID : Int) : List ItemTmpRow :=
  db.item_tmp.filter (fun r => r.biz_id == bizID)

end Item

namespace Order

/-! ## Data model of `order/main.go` -/

/-- The Go type `status` (`type status int`). -/
abbrev status := Int

/-- The constant `statusInit` (`iota` = 0). -/
def statusInit : status := 0

/-- The constant `statusTried` (1). -/
def statusTried : status := 1

/-- The constant `statusCanceled` (2). -/
def statusCanceled : status := 2

/-- The constant `statusConfirmed` (3). -/
def statusConfirmed : status := 3

/-- The Go struct `bizData`. -/
structure bizData where
  OrderID : Int
  ItemID : Int
  Price : Int
  UserID : Int
deriving DecidableEq, Repr

/-- A JSON value as far as decoding into an `event` tells values apart: an
integer literal, a string, `null`, or anything else. -/
inductive JVal where
  | num (n : Int)
  | str (s : String)
  | null
  | other
deriving DecidableEq, Repr

/-- The text of a `biz_data` column: the members of the JSON object it spells,
in order, or `none` when the text is not a JSON object. -/
abbrev JsonText := Option (List (String × JVal))

/-- The function `json.Marshal` on a `bizData`: an object with one member per
exported field, in declaration order.  It cannot fail on this struct. -/
def marshal (b : bizData) : JsonText :=
  some [("OrderID", .num b.OrderID), ("ItemID", .num b.ItemID),
        ("Price", .num b.Price), ("UserID", .num b.UserID)]

/-- The Go struct `event` of the coordinator. -/
structure event where
  ID : Int
  Status : status
  BizData : JsonText
deriving DecidableEq, Repr

/-- A row of the table `event(id, biz_id, biz_data, status)`. -/
structure EventRow where
  id : Int
  biz_id : Int
  biz_data : JsonText
  status : status
deriving DecidableEq, Repr

/-- An HTTP POST to a participant: the endpoint and the payload sent. -/
inductive Call where
  | tryAccount (b : bizData)
  | tryItem (b : bizData)
  | cancelAccount (b : bizData)
  | cancelItem (b : bizData)
  | confirmAccount (b : bizData)
  | confirmItem (b : bizData)
deriving DecidableEq, Repr

/-- The coordinator's database, the POSTs it has issued so far (oldest first),
and the environment's schedule for the retry loops still to run: the head is
the number of attempts of the next loop that fail before one succeeds. -/
structure World where
  event : List EventRow
  event_scan_offset : Option Int
  calls : List Call
  schedule : List Nat
deriving DecidableEq, Repr

/-- The error a statement returns: MySQL error 1062 (duplicate key) or another. -/
inductive SqlErr where
  | duplicate
  | other
deriving DecidableEq, Repr

/-- The function `isDup`. -/
def isDup : SqlErr → Bool
  | .duplicate => true
  | .other => false

/-- A non-nil `sql.Result` of an insert. -/
structure SqlResult where
  lastInsertId : Int
deriving DecidableEq, Repr

/-- Which of the operations `purchase` does once fail (the operations inside
retry loops follow the schedule of the world instead). -/
structure Faults where
  insertEvent : Bool := false
  lastInsertId : Bool := false
  tryAccount : Bool := false
  tryItem : Bool := false
  updateTried : Bool := false
  confirmAccount : Bool := false
  confirmItem : Bool := false
  updateConfirmed : Bool := false
deriving DecidableEq, Repr

/-- No operation fails. -/
def noFaults : Faults := {}

/-- How a function ended: by returning, or by a Go panic. -/
inductive Outcome where
  | returned
  | panicked
deriving DecidableEq, Repr

/-! ## Statements and participant calls -/

/-- The auto-increment key of the next `event` row. -/
def nextEventID (rows : List EventRow) : Int :=
  rows.foldr (fun e m => max e.id m) 0 + 1

/-- The call `s.db.Exec("insert into event(biz_id, biz_data, status) values(?,?,?)", ...)`
with both of its results: on an error the `sql.Result` is nil. -/
def insertEvent (fault : Bool) (bizID : Int) (data : JsonText) (st : status) (w : World) :
    World × Option SqlResult × Option SqlErr :=
  if fault then (w, none, some .other)
  else if w.event.any (fun e => e.biz_id == bizID) then (w, none, some .duplicate)
  else
    let id := nextEventID w.event
    ({ w with event := w.event ++ [⟨id, bizID, data, st⟩] }, some ⟨id⟩, none)

/-- A successful `update event set status = ? where id = ?`. -/
def updateStatus (st : status) (id : Int) (w : World) : World :=
  { w with event := w.event.map fun e => if e.id = id then { e with status := st } else e }

/-- An `http.Post` to a participant.  Whether it returns an error is the
environment's choice; the request is on record either way. -/
def post (c : Call) (w : World) : World :=
  { w with calls := w.calls ++ [c] }

/-- The loop `for { if err := op(); err == nil { break } }` when the first `n`
attempts fail: `failed` is a failing attempt, `ok` the one that succeeds. -/
def retryLoop (failed ok : World → World) : Nat → World → World
  | 0, w => ok w
  | n + 1, w => retryLoop failed ok n (failed w)

/-- Takes the next retry loop's number of failing attempts off the schedule
(none when the schedule has run out). -/
def nextFailures (w : World) : Nat × World :=
  (w.schedule.headD 0, { w with schedule := w.schedule.tail })

/-- The method `cancelAccount2Success`. -/
def cancelAccount2Success (b : bizData) (w : World) : World :=
  let (n, w) := nextFailures w
  retryLoop (post (.cancelAccount b)) (post (.cancelAccount b)) n w

/-- The method `cancelItem2Success`. -/
def cancelItem2Success (b : bizData) (w : World) : World :=
  let (n, w) := nextFailures w
  retryLoop (post (.cancelItem b)) (post (.cancelItem b)) n w

/-- The method `setEventStatus2Success`; a failed update changes nothing. -/
def setEventStatus2Success (id : Int) (st : status) (w : World) : World :=
  let (n, w) := nextFailures w
  retryLoop (fun w => w) (updateStatus st id) n w

/-- The method `cancel2Success`. -/
def cancel2Success (id : Int) (b : bizData) (w : World) : World :=
  setEventStatus2Success id statusCanceled (cancelItem2Success b (cancelAccount2Success b w))

/-- The method `confirmAccount2Success`. -/
def confirmAccount2Success (b : bizData) (w : World) : World :=
  let (n, w) := nextFailures w
  retryLoop (post (.confirmAccount b)) (post (.confirmAccount b)) n w

/-- The method `confirmItem2Success`; its loop body calls `s.confirmAccount`. -/
def confirmItem2Success (b : bizData) (w : World) : World :=
  let (n, w) := nextFailures w
  retryLoop (post (.confirmAccount b)) (post (.confirmAccount b)) n w

/-- The method `confirm2Success`. -/
def confirm2Success (id : Int) (b : bizData) (w : World) : World :=
  setEventStatus2Success id statusConfirmed (confirmItem2Success b (confirmAccount2Success b w))

/-! ## The purchase handler -/

/-- The `go` statements of `purchase`, one constructor per statement. -/
inductive Goroutine where
  | afterTryAccount (b : bizData)
  | afterTryItem (id : Int) (b : bizData)
  | afterUpdateTried (id : Int) (b : bizData)
  | afterConfirmAccount (id : Int) (b : bizData)
  | afterConfirmItem (id : Int) (b : bizData)
  | afterUpdateConfirmed (id : Int)
deriving DecidableEq, Repr

/-- The body of each goroutine that `purchase` starts. -/
def Goroutine.run : Goroutine → World → World
  | .afterTryAccount b, w => cancelAccount2Success b w
  | .afterTryItem id b, w => setEventStatus2Success id statusCanceled (cancel2Success id b w)
  | .afterUpdateTried id b, w =>
    setEventStatus2Success id statusConfirmed
      (confirm2Success id b (setEventStatus2Success id statusTried w))
  | .afterConfirmAccount id b, w =>
    setEventStatus2Success id statusConfirmed (confirmAccount2Success b w)
  | .afterConfirmItem id b, w =>
    setEventStatus2Success id statusConfirmed (confirmItem2Success b w)
  | .afterUpdateConfirmed id, w => setEventStatus2Success id statusConfirmed w

/-- What a run of `purchase` leaves behind: how the handler ended, the world at
that point, and the goroutine it started, if any. -/
structure PurchaseResult where
  outcome : Outcome
  world : World
  spawned : Option Goroutine
deriving DecidableEq, Repr

/-- The handler `server.purchase`.  The payload is the fixed one of the source. -/
def purchase (f : Faults) (w : World) : PurchaseResult :=
  let b : bizData := { OrderID := 1, ItemID := 1, Price := 10, UserID := 1 }
  let data := marshal b
  match insertEvent f.insertEvent b.OrderID data statusInit w with
  | (w, result, err) =>
  if err.any (fun e => !isDup e) then ⟨.returned, w, none⟩ else
  match result with
  | none => ⟨.panicked, w, none⟩
  | some result =>
  if f.lastInsertId then ⟨.returned, w, none⟩ else
  let id := result.lastInsertId
  let w := post (.tryAccount b) w
  if f.tryAccount then ⟨.returned, w, some (.afterTryAccount b)⟩ else
  let w := post (.tryItem b) w
  if f.tryItem then ⟨.returned, w, some (.afterTryItem id b)⟩ else
  if f.updateTried then ⟨.returned, w, some (.afterUpdateTried id b)⟩ else
  let w := updateStatus statusTried id w
  let w := post (.confirmAccount b) w
  if f.confirmAccount then ⟨.returned, w, some (.afterConfirmAccount id b)⟩ else
  let w := post (.confirmItem b) w
  if f.confirmItem then ⟨.returned, w, some (.afterConfirmItem id b)⟩ else
  if f.updateConfirmed then ⟨.returned, w, some (.afterUpdateConfirmed id)⟩ else
  ⟨.returned, updateStatus statusConfirmed id w, none⟩

/-- The world once the handler and the goroutine it started have finished.  The
handler touches nothing after its `go` statement, so running the goroutine
after the handler covers every interleaving of the two. -/
def purchaseSettled (f : Faults) (w : World) : World :=
  let r := purchase f w
  match r.spawned with
  | none => r.world
  | some g => g.run r.world

/-! ## The recovery loop -/

/-- Go's matching of an object key with a struct field name: equal up to the
case of the letters `A` to `Z`. -/
def keyMatches (key field : String) : Bool :=
  key.toList.map Char.toLower == field.toList.map Char.toLower

/-- One member of a JSON object decoded into an `event`: the flag tells whether
the member raised an `UnmarshalTypeError`.  A key that matches no field is
skipped, `null` leaves the field alone, and a string stored into `BizData`
replaces a text that is not read again, which the model leaves as it is. -/
def unmarshalMember (ev : event) (m : String × JVal) : Bool × event :=
  if keyMatches m.1 "ID" then
    match m.2 with
    | .num n => (false, { ev with ID := n })
    | .null => (false, ev)
    | _ => (true, ev)
  else if keyMatches m.1 "Status" then
    match m.2 with
    | .num n => (false, { ev with Status := n })
    | .null => (false, ev)
    | _ => (true, ev)
  else if keyMatches m.1 "BizData" then
    match m.2 with
    | .str _ => (false, ev)
    | .null => (false, ev)
    | _ => (true, ev)
  else (false, ev)

/-- The call `json.Unmarshal([]byte(event.BizData), event)`: whether it returns
an error, and the `event` afterwards.  A text that is not an object is an
error; a member with a value of the wrong type is skipped and reported. -/
def unmarshalEvent (text : JsonText) (ev : event) : Bool × event :=
  match text with
  | none => (true, ev)
  | some members =>
    members.foldl (fun acc m =>
      let r := unmarshalMember acc.2 m
      (acc.1 || r.1, r.2)) (false, ev)

/-- The method `findOffset`: the stored offset, or the zero value of `int64`
when the table is empty.  A failed read is repeated and changes nothing. -/
def findOffset (w : World) : Int :=
  w.event_scan_offset.getD 0

/-- The rows that `select biz_data,status from event where id > ? limit 1000`
returns. -/
def scanRows (offset : Int) (w : World) : List EventRow :=
  (w.event.filter (fun r => decide (r.id > offset))).take 1000

/-- The method `doFindEvents` when the query succeeds: each row is scanned
into a fresh `event`, of which only `BizData` and `Status` are filled. -/
def doFindEvents (offset : Int) (w : World) : List event :=
  (scanRows offset w).map fun r => { ID := 0, Status := r.status, BizData := r.biz_data }

/-- The method `findEvents`: a failed query is repeated and changes nothing. -/
def findEvents (offset : Int) (w : World) : List event :=
  doFindEvents offset w

/-- The method `doHandleEvent`.  Every `return` of it returns `nil`. -/
def doHandleEvent (ev : event) (w : World) : Outcome × World :=
  let b : bizData := { OrderID := 0, ItemID := 0, Price := 0, UserID := 0 }
  match unmarshalEvent ev.BizData ev with
  | (true, _) => (.returned, w)
  | (false, ev) =>
    if ev.Status = statusInit then (.returned, cancel2Success ev.ID b w)
    else if ev.Status = statusTried then (.returned, confirm2Success ev.ID b w)
    else if ev.Status = statusConfirmed then (.returned, w)
    else if ev.Status = statusCanceled then (.returned, w)
    else (.panicked, w)

/-- The method `handleEvent`: it repeats `doHandleEvent` until that returns
`nil`, which the first call does. -/
def handleEvent (ev : event) (w : World) : Outcome × World :=
  doHandleEvent ev w

/-- The method `handleEvents`; a panic ends the loop. -/
def handleEvents : List event → World → Outcome × World
  | [], w => (.returned, w)
  | ev :: rest, w =>
    match handleEvent ev w with
    | (.returned, w) => handleEvents rest w
    | (.panicked, w) => (.panicked, w)

/-- The method `updateOffset`; a failed upsert changes nothing. -/
def updateOffset (offset : Int) (w : World) : World :=
  let (n, w) := nextFailures w
  retryLoop (fun w => w) (fun w => { w with event_scan_offset := some offset }) n w

/-- How one pass through the body of the `for` of `server.recover` ends. -/
inductive Iteration where
  | done (w : World)
  | next (w : World)
  | panicked (w : World)
deriving DecidableEq, Repr

/-- One pass through the body of the `for` of `server.recover`: `done` when the
batch is empty and `recover` returns, `next` when the loop goes round again. -/
def recoverIteration (w : World) : Iteration :=
  let offset := findOffset w
  let events := findEvents offset w
  if events.length = 0 then .done w else
  match handleEvents events w with
  | (.panicked, w) => .panicked w
  | (.returned, w) => .next (updateOffset (offset + (events.length : Int)) w)

/-- The ids of a list of rows. -/
def ids (rows : List EventRow) : List Int :=
  rows.map fun r => r.id

/-- A row as `purchase` writes and the status updates leave it: a marshalled
payload and one of the four statuses. -/
def WellFormed (r : EventRow) : Prop :=
  (∃ b, r.biz_data = marshal b) ∧
    (r.status = statusInit ∨ r.status = statusTried ∨
      r.status = statusCanceled ∨ r.status = statusConfirmed)

/-- The Go `event` scanned from a well-formed row. -/
def WellFormedEvent (ev : event) : Prop :=
  (∃ b, ev.BizData = marshal b) ∧
    (ev.Status = statusInit ∨ ev.Status = statusTried ∨
      ev.Status = statusCanceled ∨ ev.Status = statusConfirmed)

/-- The world `v` has the row ids and the stored offset of the world `w`. -/
def SameKeys (w v : World) : Prop :=
  ids v.event = ids w.event ∧ v.event_scan_offset = w.event_scan_offset

/-- The status of the event row `id`, if the row exists. -/
def statusOf (w : World) (id : Int) : Option status :=
  (w.event.find? (fun e => e.id == id)).map (fun e => e.status)

end Order

namespace Item

/-! ## Lemmas on the statements -/

theorem any_bizID_of_eventOf {db : DB} {bizID : Int} {e : event}
    (h : eventOf db bizID = some e) :
    db.event.any (fun e => e.BizID == bizID) = true := by
  unfold eventOf at h
  have hm := List.mem_of_find?_eq_some h
  have hp := List.find?_some h
  exact List.any_eq_true.mpr ⟨e, hm, hp⟩

theorem any_bizID_of_eventOf_none {db : DB} {bizID : Int}
    (h : eventOf db bizID = none) :
    db.event.any (fun e => e.BizID == bizID) = false := by
  unfold eventOf at h
  rw [List.find?_eq_none] at h
  rw [List.any_eq_false]
  exact h

/-- An insert of an event for a `biz_id` that already has one fails. -/
theorem insertEvent_of_present {db : DB} {bizID : Int} {e : event} (fault : Bool)
    (st : status) (h : eventOf db bizID = some e) :
    ∃ err, insertEvent fault bizID st db = .error err := by
  unfold insertEvent
  by_cases hf : fault = true
  · exact ⟨.other, by simp [hf]⟩
  · exact ⟨.duplicate, by simp [hf, any_bizID_of_eventOf h]⟩

theorem selectEvent_of_present {db : DB} {bizID : Int} {e : event}
    (h : eventOf db bizID = some e) :
    selectEvent false bizID db = .row e := by
  unfold eventOf at h
  simp [selectEvent, h]


theorem any_tmp_of_tmpOf_nil {db : DB} {bizID : Int} (h : tmpOf db bizID = []) :
    db.item_tmp.any (fun r => r.biz_id == bizID) = false := by
  unfold tmpOf at h
  rw [List.filter_eq_nil_iff] at h
  rw [List.any_eq_false]
  exact h

/-- The database a `try` without faults commits for a `biz_id` that has neither
an event nor an `item_tmp` row. -/
theorem server_try_fresh {db : DB} {b : bizData}
    (he : eventOf db b.OrderID = none) (ht : tmpOf db b.OrderID = []) :
    (server_try noFaults (some b) db).1 =
      { event := db.event ++ [⟨nextEventID db.event, b.OrderID, statusTried⟩]
        item := db.item.map (decreaseRow 1 b.ItemID)
        item_tmp := db.item_tmp ++ [⟨b.OrderID, 1⟩] } := by
  simp [server_try, noFaults, insertEvent, decreaseItem, insertItemTmp, commit,
    any_bizID_of_eventOf_none he, any_tmp_of_tmpOf_nil ht]

/-- A `cancel` for a `biz_id` without an event leaves the database as it was:
the insert of the `canceled` event is not committed. -/
theorem server_cancel_absent (f : Faults) {db : DB} {b : bizData}
    (he : eventOf db b.OrderID = none) :
    (server_cancel f (some b) db).1 = db := by
  unfold eventOf at he
  unfold server_cancel
  by_cases hb : f.begin = true
  · simp [hb]
  · by_cases hs : f.selectEvent = true
    · simp [hb, hs, selectEvent]
    · simp only [hb, hs, selectEvent, he]
      cases insertEvent f.insertEvent b.OrderID statusCanceled db <;> simp

theorem le_foldr_max_ID {rows : List event} {e : event} (h : e ∈ rows) :
    e.ID ≤ rows.foldr (fun e m => max e.ID m) 0 := by
  induction rows with
  | nil => cases h
  | cons x xs ih =>
    simp only [List.foldr_cons]
    rcases List.mem_cons.mp h with rfl | h
    · exact le_max_left _ _
    · exact le_trans (ih h) (le_max_right _ _)

/-- No row carries the key the next insert will get. -/
theorem ne_nextEventID {rows : List event} {e : event} (h : e ∈ rows) :
    e.ID ≠ nextEventID rows := by
  have := le_foldr_max_ID h
  unfold nextEventID
  omega

theorem find?_map_keep_id (g : ItemRow → ItemRow) (hg : ∀ r, (g r).id = r.id)
    (l : List ItemRow) (k : Int) :
    (l.map g).find? (fun r => r.id == k) = (l.find? (fun r => r.id == k)).map g := by
  induction l with
  | nil => rfl
  | cons x xs ih =>
    simp only [List.map_cons, List.find?_cons, hg]
    cases h : (x.id == k) <;> simp [ih]

theorem decreaseRow_id (n itemID : Int) (r : ItemRow) : (decreaseRow n itemID r).id = r.id := by
  unfold decreaseRow
  split_ifs <;> rfl

theorem increaseRow_id (n itemID : Int) (r : ItemRow) : (increaseRow n itemID r).id = r.id := by
  unfold increaseRow
  split_ifs <;> rfl

theorem updateEvent_next_old (rows : List event) (st : status) :
    (rows.map fun e => if e.ID = nextEventID rows then { e with Status := st } else e) = rows := by
  conv_rhs => rw [← List.map_id rows]
  apply List.map_congr_left
  intro e hmem
  simp [ne_nextEventID hmem]

theorem filter_tmp_of_tmpOf_nil {db : DB} {bizID : Int} (ht : tmpOf db bizID = []) :
    db.item_tmp.filter (fun r => r.biz_id != bizID) = db.item_tmp := by
  rw [List.filter_eq_self]
  intro r hr
  have := any_tmp_of_tmpOf_nil ht
  rw [List.any_eq_false] at this
  simpa using this r hr

theorem find?_event_of_none {db : DB} {bizID : Int} (he : eventOf db bizID = none) :
    db.event.find? (fun e => e.BizID == bizID) = none := he

/-- The database after a `try` and then a `cancel`, without faults, for a
`biz_id` that had neither an event nor an `item_tmp` row. -/
theorem try_cancel_db {db : DB} {b : bizData}
    (he : eventOf db b.OrderID = none) (ht : tmpOf db b.OrderID = []) :
    (server_cancel noFaults (some b) (server_try noFaults (some b) db).1).1 =
      { event := db.event ++ [⟨nextEventID db.event, b.OrderID, statusCanceled⟩]
        item := db.item.map (fun r => increaseRow 1 b.ItemID (decreaseRow 1 b.ItemID r))
        item_tmp := db.item_tmp } := by
  rw [server_try_fresh he ht]
  simp [server_cancel, noFaults, selectEvent, List.find?_append, find?_event_of_none he,
    statusTried,
    deleteItemTmp, increaseItem, updateEvent, commit, List.filter_append,
    filter_tmp_of_tmpOf_nil ht, updateEvent_next_old, Function.comp_def]

/-- The database after a `try` and then a `confirm`, without faults, for a
`biz_id` that had neither an event nor an `item_tmp` row. -/
theorem try_confirm_db {db : DB} {b : bizData}
    (he : eventOf db b.OrderID = none) (ht : tmpOf db b.OrderID = []) :
    (server_confirm noFaults (some b) (server_try noFaults (some b) db).1).1 =
      { event := db.event ++ [⟨nextEventID db.event, b.OrderID, statusConfirmed⟩]
        item := db.item.map (fun r => increaseRow 1 b.ItemID (decreaseRow 1 b.ItemID r))
        item_tmp := db.item_tmp } := by
  rw [server_try_fresh he ht]
  simp [server_confirm, noFaults, selectEvent, List.find?_append, find?_event_of_none he,
    statusTried,
    deleteItemTmp, increaseItem, updateEvent, commit, List.filter_append,
    filter_tmp_of_tmpOf_nil ht, updateEvent_next_old, Function.comp_def]

/-- The amount of an item after its rows went through `decreaseRow` and then
`increaseRow`. -/
theorem amountOf_dec_inc {db : DB} {itemID a : Int} (events : List event)
    (tmp : List ItemTmpRow) (ha : amountOf db itemID = some a) :
    amountOf { event := events
               item := db.item.map (fun r => increaseRow 1 itemID (decreaseRow 1 itemID r))
               item_tmp := tmp } itemID = some (if a ≥ 1 then a else a + 1) := by
  unfold amountOf at ha ⊢
  simp only []
  rw [find?_map_keep_id _ (fun r => by rw [increaseRow_id, decreaseRow_id])]
  cases hf : db.item.find? (fun r => r.id == itemID) with
  | none => simp [hf] at ha
  | some r =>
    have hid : r.id = itemID := by simpa using List.find?_some hf
    simp only [hf, Option.map_some', Option.some.injEq] at ha
    simp only [Option.map_some', Option.some.injEq, increaseRow, decreaseRow, hid, ha, true_and]
    split_ifs <;> simp_all

/-- The amount of an item after its rows went through `decreaseRow`. -/
theorem amountOf_dec {db : DB} {itemID a : Int} (events : List event)
    (tmp : List ItemTmpRow) (ha : amountOf db itemID = some a) :
    amountOf { event := events
               item := db.item.map (decreaseRow 1 itemID)
               item_tmp := tmp } itemID = some (if a ≥ 1 then a - 1 else a) := by
  unfold amountOf at ha ⊢
  simp only []
  rw [find?_map_keep_id _ (decreaseRow_id 1 itemID)]
  cases hf : db.item.find? (fun r => r.id == itemID) with
  | none => simp [hf] at ha
  | some r =>
    have hid : r.id = itemID := by simpa using List.find?_some hf
    simp only [hf, Option.map_some', Option.some.injEq] at ha
    simp only [Option.map_some', Option.some.injEq, decreaseRow, hid, ha, true_and]
    split_ifs <;> simp_all

theorem tmpOf_append_new {db : DB} {bizID : Int} (events : List event) (items : List ItemRow)
    (ht : tmpOf db bizID = []) :
    tmpOf { event := events, item := items, item_tmp := db.item_tmp ++ [⟨bizID, 1⟩] } bizID =
      [⟨bizID, 1⟩] := by
  unfold tmpOf at ht ⊢
  simp [List.filter_append, ht]

theorem eventOf_append_new {db : DB} {bizID : Int} (st : status) (items : List ItemRow)
    (tmp : List ItemTmpRow) (he : eventOf db bizID = none) :
    eventOf { event := db.event ++ [⟨nextEventID db.event, bizID, st⟩]
              item := items, item_tmp := tmp } bizID =
      some ⟨nextEventID db.event, bizID, st⟩ := by
  unfold eventOf
  simp [List.find?_append, find?_event_of_none he]

/-! ## The claims on the item participant -/

/-- C1, as the code behaves: when the `biz_id` has no event and no `item_tmp`
row and the item's amount `a` is at least 1, `try` followed by `confirm`
(no statement failing) leaves no `item_tmp` row for the `biz_id`, records the
event as confirmed, and leaves the item's amount at `a`, its value before the
`try`, not at `a - 1`: `confirm` adds back the unit that `try` took. -/
theorem try_confirm_restores_amount (db : DB) (b : bizData) (a : Int)
    (he : eventOf db b.OrderID = none) (ht : tmpOf db b.OrderID = [])
    (ha : amountOf db b.ItemID = some a) (h1 : 1 ≤ a) :
    tmpOf (server_confirm noFaults (some b) (server_try noFaults (some b) db).1).1 b.OrderID = [] ∧
    eventOf (server_confirm noFaults (some b) (server_try noFaults (some b) db).1).1 b.OrderID =
      some ⟨nextEventID db.event, b.OrderID, statusConfirmed⟩ ∧
    amountOf (server_confirm noFaults (some b) (server_try noFaults (some b) db).1).1 b.ItemID =
      some a ∧
    amountOf (server_confirm noFaults (some b) (server_try noFaults (some b) db).1).1 b.ItemID ≠
      some (a - 1) := by
  rw [try_confirm_db he ht, amountOf_dec_inc _ _ ha, eventOf_append_new _ _ _ he]
  refine ⟨ht, rfl, by simp [h1], ?_⟩
  simp only [ge_iff_le, h1, if_true, ne_eq, Option.some.injEq]
  omega

theorem try_confirm_restores_amount_witness :
    eventOf ⟨[], [⟨1, 1⟩], []⟩ 1 = none ∧ tmpOf ⟨[], [⟨1, 1⟩], []⟩ 1 = [] ∧
    amountOf ⟨[], [⟨1, 1⟩], []⟩ 1 = some 1 ∧
    amountOf (server_confirm noFaults (some ⟨1, 1, 1, 10⟩)
      (server_try noFaults (some ⟨1, 1, 1, 10⟩) ⟨[], [⟨1, 1⟩], []⟩).1).1 1 = some 1 :=
  ⟨by decide, by decide, by decide,
    (try_confirm_restores_amount ⟨[], [⟨1, 1⟩], []⟩ ⟨1, 1, 1, 10⟩ 1
      (by decide) (by decide) (by decide) (by decide)).2.2.1⟩

/-- C2, as the code behaves: when the `biz_id` has no event and no `item_tmp`
row and the item's amount `a` is below 1, `try` followed by `cancel` (no
statement failing) leaves the amount at `a + 1`: `try` commits without taking a
unit, and `cancel` gives one back. -/
theorem try_cancel_adds_unit_without_stock (db : DB) (b : bizData) (a : Int)
    (he : eventOf db b.OrderID = none) (ht : tmpOf db b.OrderID = [])
    (ha : amountOf db b.ItemID = some a) (h0 : a < 1) :
    amountOf (server_cancel noFaults (some b) (server_try noFaults (some b) db).1).1 b.ItemID =
      some (a + 1) ∧
    amountOf (server_cancel noFaults (some b) (server_try noFaults (some b) db).1).1 b.ItemID ≠
      amountOf db b.ItemID := by
  rw [try_cancel_db he ht, amountOf_dec_inc _ _ ha, ha]
  have h : ¬ a ≥ 1 := by omega
  simp only [h, if_false, ne_eq, Option.some.injEq, true_and]
  omega

theorem try_cancel_adds_unit_without_stock_witness :
    eventOf ⟨[], [⟨1, 0⟩], []⟩ 1 = none ∧ tmpOf ⟨[], [⟨1, 0⟩], []⟩ 1 = [] ∧
    amountOf ⟨[], [⟨1, 0⟩], []⟩ 1 = some 0 ∧
    amountOf (server_cancel noFaults (some ⟨1, 1, 1, 10⟩)
      (server_try noFaults (some ⟨1, 1, 1, 10⟩) ⟨[], [⟨1, 0⟩], []⟩).1).1 1 = some (0 + 1) :=
  ⟨by decide, by decide, by decide,
    (try_cancel_adds_unit_without_stock ⟨[], [⟨1, 0⟩], []⟩ ⟨1, 1, 1, 10⟩ 0
      (by decide) (by decide) (by decide) (by decide)).1⟩

/-- C3, as the code behaves: when the `biz_id` has no event and no `item_tmp`
row and the item's amount `a` is below 1, a `try` without faults commits: the
event is recorded as tried and an `item_tmp` row of one unit exists, while the
amount stays `a`. -/
theorem try_commits_without_stock (db : DB) (b : bizData) (a : Int)
    (he : eventOf db b.OrderID = none) (ht : tmpOf db b.OrderID = [])
    (ha : amountOf db b.ItemID = some a) (h0 : a < 1) :
    eventOf (server_try noFaults (some b) db).1 b.OrderID =
      some ⟨nextEventID db.event, b.OrderID, statusTried⟩ ∧
    tmpOf (server_try noFaults (some b) db).1 b.OrderID = [⟨b.OrderID, 1⟩] ∧
    amountOf (server_try noFaults (some b) db).1 b.ItemID = some a ∧
    (server_try noFaults (some b) db).1 ≠ db := by
  rw [server_try_fresh he ht, amountOf_dec _ _ ha, eventOf_append_new _ _ _ he,
    tmpOf_append_new _ _ ht]
  have h : ¬ a ≥ 1 := by omega
  refine ⟨rfl, rfl, by simp [h], ?_⟩
  intro hdb
  have := congrArg (fun d => d.item_tmp.length) hdb
  simp at this

theorem try_commits_without_stock_witness :
    eventOf ⟨[], [⟨1, 0⟩], []⟩ 1 = none ∧ tmpOf ⟨[], [⟨1, 0⟩], []⟩ 1 = [] ∧
    amountOf ⟨[], [⟨1, 0⟩], []⟩ 1 = some 0 ∧
    eventOf (server_try noFaults (some ⟨1, 1, 1, 10⟩) ⟨[], [⟨1, 0⟩], []⟩).1 1 =
      some ⟨nextEventID [], 1, statusTried⟩ :=
  ⟨by decide, by decide, by decide,
    (try_commits_without_stock ⟨[], [⟨1, 0⟩], []⟩ ⟨1, 1, 1, 10⟩ 0
      (by decide) (by decide) (by decide) (by decide)).1⟩

/-- C4, as the code behaves: when the `biz_id` has no event and no `item_tmp`
row, a `cancel` (whatever fails in it) leaves the database as it was, and with
an amount `a` of at least 1 the `try` that follows (no statement failing)
reserves: the event is recorded as tried, an `item_tmp` row of one unit exists,
and the amount is `a - 1`. -/
theorem cancel_then_try_reserves (f : Faults) (db : DB) (b : bizData) (a : Int)
    (he : eventOf db b.OrderID = none) (ht : tmpOf db b.OrderID = [])
    (ha : amountOf db b.ItemID = some a) (h1 : 1 ≤ a) :
    (server_cancel f (some b) db).1 = db ∧
    eventOf (server_try noFaults (some b) (server_cancel f (some b) db).1).1 b.OrderID =
      some ⟨nextEventID db.event, b.OrderID, statusTried⟩ ∧
    tmpOf (server_try noFaults (some b) (server_cancel f (some b) db).1).1 b.OrderID =
      [⟨b.OrderID, 1⟩] ∧
    amountOf (server_try noFaults (some b) (server_cancel f (some b) db).1).1 b.ItemID =
      some (a - 1) := by
  rw [server_cancel_absent f he, server_try_fresh he ht, amountOf_dec _ _ ha,
    eventOf_append_new _ _ _ he, tmpOf_append_new _ _ ht]
  exact ⟨rfl, rfl, rfl, by simp [h1]⟩

theorem cancel_then_try_reserves_witness :
    eventOf ⟨[], [⟨1, 1⟩], []⟩ 1 = none ∧ tmpOf ⟨[], [⟨1, 1⟩], []⟩ 1 = [] ∧
    amountOf ⟨[], [⟨1, 1⟩], []⟩ 1 = some 1 ∧
    amountOf (server_try noFaults (some ⟨1, 1, 1, 10⟩)
      (server_cancel noFaults (some ⟨1, 1, 1, 10⟩) ⟨[], [⟨1, 1⟩], []⟩).1).1 1 = some (1 - 1) :=
  ⟨by decide, by decide, by decide,
    (cancel_then_try_reserves noFaults ⟨[], [⟨1, 1⟩], []⟩ ⟨1, 1, 1, 10⟩ 1
      (by decide) (by decide) (by decide) (by decide)).2.2.2⟩

/-- C9: when the participant event of the `biz_id` has status canceled or
confirmed, each of `try`, `cancel` and `confirm` with that `biz_id`, whatever
fails in it, leaves the whole database (events, `item_tmp`, items) unchanged. -/
theorem terminal_status_is_noop (f : Faults) (db : DB) (b : bizData) (e : event)
    (he : eventOf db b.OrderID = some e)
    (hs : e.Status = statusCanceled ∨ e.Status = statusConfirmed) :
    (server_try f (some b) db).1 = db ∧ (server_cancel f (some b) db).1 = db ∧
    (server_confirm f (some b) db).1 = db := by
  have hne : e.Status ≠ statusTried := by
    rcases hs with h | h <;> rw [h] <;> decide
  refine ⟨?_, ?_, ?_⟩
  · obtain ⟨err, herr⟩ := insertEvent_of_present f.insertEvent statusTried he
    unfold server_try
    by_cases hb : f.begin = true
    · simp [hb]
    · simp [hb, herr]
  · unfold server_cancel
    by_cases hb : f.begin = true
    · simp [hb]
    · by_cases hsel : f.selectEvent = true
      · simp [hb, hsel, selectEvent]
      · have hf : f.selectEvent = false := by simpa using hsel
        simp [hb, hf, selectEvent_of_present he, hne]
  · unfold server_confirm
    by_cases hb : f.begin = true
    · simp [hb]
    · by_cases hsel : f.selectEvent = true
      · simp [hb, hsel, selectEvent]
      · have hf : f.selectEvent = false := by simpa using hsel
        simp [hb, hf, selectEvent_of_present he, hne]

theorem terminal_status_is_noop_witness :
    eventOf ⟨[⟨1, 1, statusConfirmed⟩], [⟨1, 0⟩], []⟩ 1 = some ⟨1, 1, statusConfirmed⟩ ∧
    (server_try noFaults (some ⟨1, 1, 1, 10⟩) ⟨[⟨1, 1, statusConfirmed⟩], [⟨1, 0⟩], []⟩).1 =
      ⟨[⟨1, 1, statusConfirmed⟩], [⟨1, 0⟩], []⟩ ∧
    (server_cancel noFaults (some ⟨1, 1, 1, 10⟩) ⟨[⟨1, 1, statusConfirmed⟩], [⟨1, 0⟩], []⟩).1 =
      ⟨[⟨1, 1, statusConfirmed⟩], [⟨1, 0⟩], []⟩ ∧
    (server_confirm noFaults (some ⟨1, 1, 1, 10⟩) ⟨[⟨1, 1, statusConfirmed⟩], [⟨1, 0⟩], []⟩).1 =
      ⟨[⟨1, 1, statusConfirmed⟩], [⟨1, 0⟩], []⟩ :=
  ⟨by decide,
    terminal_status_is_noop noFaults ⟨[⟨1, 1, statusConfirmed⟩], [⟨1, 0⟩], []⟩ ⟨1, 1, 1, 10⟩
      ⟨1, 1, statusConfirmed⟩ (by decide) (Or.inr rfl)⟩

/-- C10 fails as stated: a `try` whose body does not decode, a `try` whose
insert into `item_tmp` errors, and a `try` on an item without stock are all
answered with status 200. -/
theorem try_failure_answers_200 :
    statusCode (server_try noFaults none ⟨[], [⟨1, 1⟩], []⟩).2 = 200 ∧
    (server_try { insertItemTmp := true } (some ⟨1, 1, 1, 10⟩) ⟨[], [⟨1, 1⟩], []⟩).1 =
      ⟨[], [⟨1, 1⟩], []⟩ ∧
    statusCode (server_try { insertItemTmp := true } (some ⟨1, 1, 1, 10⟩)
      ⟨[], [⟨1, 1⟩], []⟩).2 = 200 ∧
    statusCode (server_try noFaults (some ⟨1, 1, 1, 10⟩) ⟨[], [⟨1, 0⟩], []⟩).2 = 200 := by
  decide

/-- C10, amended: the `/try` handler answers with status 200 on every path,
whether the body decodes or not, whichever statement fails, and whatever the
stock is: it never writes a status to the response. -/
theorem try_always_answers_200 (f : Faults) (body : Option bizData) (db : DB) :
    (server_try f body db).2.wroteHeader = none ∧
    statusCode (server_try f body db).2 = 200 := by
  have h : (server_try f body db).2 = {} := by
    unfold server_try
    cases body with
    | none => rfl
    | some b =>
      simp only []
      split_ifs
      · rfl
      · split
        · split_ifs <;> rfl
        · split
          · rfl
          · split <;> rfl
  rw [h]
  exact ⟨rfl, rfl⟩

end Item

namespace Order

/-! ## Lemmas on the retry loops -/

/-- A retry loop keeps whatever both a failing and a succeeding attempt keep. -/
theorem retryLoop_preserves (P : World → Prop) (failed ok : World → World)
    (hf : ∀ w, P w → P (failed w)) (ho : ∀ w, P w → P (ok w)) :
    ∀ (n : Nat) (w : World), P w → P (retryLoop failed ok n w) := by
  intro n
  induction n with
  | zero => intro w hw; exact ho w hw
  | succ n ih => intro w hw; exact ih (failed w) (hf w hw)

theorem row_id_le_foldr_max {rows : List EventRow} {e : EventRow} (h : e ∈ rows) :
    e.id ≤ rows.foldr (fun e m => max e.id m) 0 := by
  induction rows with
  | nil => cases h
  | cons x xs ih =>
    simp only [List.foldr_cons]
    rcases List.mem_cons.mp h with rfl | h
    · exact le_max_left _ _
    · exact le_trans (ih h) (le_max_right _ _)

/-- No row carries the key the next insert will get. -/
theorem row_id_ne_next {rows : List EventRow} {e : EventRow} (h : e ∈ rows) :
    e.id ≠ nextEventID rows := by
  have := row_id_le_foldr_max h
  unfold nextEventID
  omega

theorem statusOf_append_new (rows : List EventRow) (bizID : Int) (data : JsonText)
    (st : status) (offset : Option Int) (calls : List Call) (schedule : List Nat) :
    statusOf ⟨rows ++ [⟨nextEventID rows, bizID, data, st⟩], offset, calls, schedule⟩
      (nextEventID rows) = some st := by
  unfold statusOf
  have h : rows.find? (fun e => e.id == nextEventID rows) = none := by
    rw [List.find?_eq_none]
    intro e he
    simpa using row_id_ne_next he
  simp [List.find?_append, h]

theorem statusOf_congr {w v : World} (h : v.event = w.event) (id : Int) :
    statusOf v id = statusOf w id := by
  unfold statusOf
  rw [h]

theorem statusOf_post (c : Call) (w : World) (id : Int) :
    statusOf (post c w) id = statusOf w id := rfl

theorem participantLoop_event (c : Call) (w : World) :
    (retryLoop (post c) (post c) (nextFailures w).1 (nextFailures w).2).event = w.event :=
  retryLoop_preserves (fun v => v.event = w.event) (post c) (post c)
    (fun _ h => h) (fun _ h => h) _ _ rfl

theorem statusOf_cancelAccount2Success (b : bizData) (w : World) (id : Int) :
    statusOf (cancelAccount2Success b w) id = statusOf w id :=
  statusOf_congr (participantLoop_event _ w) id

theorem statusOf_cancelItem2Success (b : bizData) (w : World) (id : Int) :
    statusOf (cancelItem2Success b w) id = statusOf w id :=
  statusOf_congr (participantLoop_event _ w) id

theorem statusOf_confirmAccount2Success (b : bizData) (w : World) (id : Int) :
    statusOf (confirmAccount2Success b w) id = statusOf w id :=
  statusOf_congr (participantLoop_event _ w) id

theorem statusOf_confirmItem2Success (b : bizData) (w : World) (id : Int) :
    statusOf (confirmItem2Success b w) id = statusOf w id :=
  statusOf_congr (participantLoop_event _ w) id

theorem retryLoop_id (ok : World → World) (n : Nat) (w : World) :
    retryLoop (fun w => w) ok n w = ok w := by
  induction n with
  | zero => rfl
  | succ n ih => exact ih

/-- A status update of an existing row makes the new status the row's status. -/
theorem statusOf_updateStatus (st : status) (id : Int) (w : World)
    (h : (statusOf w id).isSome = true) : statusOf (updateStatus st id w) id = some st := by
  have key : ∀ rows : List EventRow,
      ((rows.find? (fun e => e.id == id)).map (fun e => e.status)).isSome = true →
      ((rows.map fun e => if e.id = id then { e with status := st } else e).find?
        (fun e => e.id == id)).map (fun e => e.status) = some st := by
    intro rows
    induction rows with
    | nil => intro h; simp at h
    | cons e rest ih =>
      intro h
      by_cases he : e.id = id
      · simp [List.find?_cons, he]
      · have hb : (e.id == id) = false := by simpa using he
        simp only [List.find?_cons, hb] at h
        simp only [List.map_cons, he, if_false, List.find?_cons, hb]
        exact ih h
  exact key w.event h

/-- A status update of any row keeps the set of ids that have a row. -/
theorem statusOf_isSome_updateStatus (st : status) (id id' : Int) (w : World) :
    (statusOf (updateStatus st id' w) id).isSome = (statusOf w id).isSome := by
  have key : ∀ rows : List EventRow,
      (((rows.map fun e => if e.id = id' then { e with status := st } else e).find?
        (fun e => e.id == id)).map (fun e => e.status)).isSome =
      ((rows.find? (fun e => e.id == id)).map (fun e => e.status)).isSome := by
    intro rows
    induction rows with
    | nil => rfl
    | cons e rest ih =>
      have hid : (if e.id = id' then { e with status := st } else e).id = e.id := by
        split_ifs <;> rfl
      simp only [List.map_cons, List.find?_cons, hid]
      cases hb : (e.id == id)
      · exact ih
      · simp
  exact key w.event

theorem setEventStatus2Success_event (st : status) (id : Int) (w : World) :
    (setEventStatus2Success id st w).event = (updateStatus st id w).event := by
  simp [setEventStatus2Success, nextFailures, retryLoop_id, updateStatus]

theorem statusOf_setEventStatus2Success (st : status) (id : Int) (w : World)
    (h : (statusOf w id).isSome = true) :
    statusOf (setEventStatus2Success id st w) id = some st := by
  rw [statusOf_congr (setEventStatus2Success_event st id w)]
  exact statusOf_updateStatus st id w h

theorem statusOf_isSome_setEventStatus2Success (st : status) (id id' : Int) (w : World) :
    (statusOf (setEventStatus2Success id' st w) id).isSome = (statusOf w id).isSome := by
  rw [statusOf_congr (setEventStatus2Success_event st id' w)]
  exact statusOf_isSome_updateStatus st id id' w

/-! ## The claims on the coordinator -/

/-- C5, as the code behaves: when `purchase` inserts a fresh event (no event of
`biz_id` 1 exists, neither the insert nor `LastInsertId` fails), then for every
pattern of failures and every retry schedule, once the handler and the
goroutine it started have finished, the status of the new event is init if the
account try failed, canceled if the account try succeeded and the item try
failed, and confirmed if both tries succeeded.  The path of the failed account
try cancels the account and never updates the event. -/
theorem purchase_settled_status (f : Faults) (w : World)
    (hi : f.insertEvent = false) (hl : f.lastInsertId = false)
    (hfresh : w.event.any (fun e => e.biz_id == 1) = false) :
    statusOf (purchaseSettled f w) (nextEventID w.event) =
      some (if f.tryAccount then statusInit
            else if f.tryItem then statusCanceled else statusConfirmed) := by
  have hnew := statusOf_append_new w.event 1 (marshal ⟨1, 1, 10, 1⟩) statusInit
    w.event_scan_offset
  simp only [purchaseSettled, purchase, insertEvent, hi, hl, hfresh, Bool.false_eq_true,
    if_false, Option.any_none]
  by_cases h1 : f.tryAccount = true
  · simp [h1, Goroutine.run, statusOf_cancelAccount2Success, statusOf_post, hnew]
  by_cases h2 : f.tryItem = true
  · simp [h1, h2, Goroutine.run, cancel2Success, statusOf_setEventStatus2Success,
      statusOf_isSome_setEventStatus2Success, statusOf_isSome_updateStatus,
      statusOf_cancelItem2Success, statusOf_cancelAccount2Success, statusOf_post, hnew]
  by_cases h3 : f.updateTried = true
  · simp [h1, h2, h3, Goroutine.run, confirm2Success, statusOf_setEventStatus2Success,
      statusOf_isSome_setEventStatus2Success, statusOf_isSome_updateStatus,
      statusOf_confirmItem2Success, statusOf_confirmAccount2Success, statusOf_post, hnew]
  by_cases h4 : f.confirmAccount = true
  · simp [h1, h2, h3, h4, Goroutine.run, statusOf_setEventStatus2Success,
      statusOf_isSome_setEventStatus2Success, statusOf_isSome_updateStatus,
      statusOf_confirmAccount2Success, statusOf_post, statusOf_updateStatus, hnew]
  by_cases h5 : f.confirmItem = true
  · simp [h1, h2, h3, h4, h5, Goroutine.run, statusOf_setEventStatus2Success,
      statusOf_isSome_setEventStatus2Success, statusOf_isSome_updateStatus,
      statusOf_confirmItem2Success, statusOf_post, statusOf_updateStatus, hnew]
  by_cases h6 : f.updateConfirmed = true
  · simp [h1, h2, h3, h4, h5, h6, Goroutine.run, statusOf_setEventStatus2Success,
      statusOf_isSome_setEventStatus2Success, statusOf_isSome_updateStatus,
      statusOf_post, statusOf_updateStatus, hnew]
  · simp [h1, h2, h3, h4, h5, h6, statusOf_post, statusOf_updateStatus,
      statusOf_isSome_updateStatus, hnew]

/-- C5 at a failing input: on an empty event table, with the account try failing
and two failed attempts scheduled for the retry loop, the settled status of the
new event (id 1) is init. -/
theorem purchase_settled_status_witness :
    (⟨[], none, [], [2]⟩ : World).event.any (fun e => e.biz_id == 1) = false ∧
    statusOf (purchaseSettled { tryAccount := true } ⟨[], none, [], [2]⟩)
      (nextEventID []) = some statusInit :=
  ⟨rfl, purchase_settled_status { tryAccount := true } ⟨[], none, [], [2]⟩ rfl rfl rfl⟩

/-- C6, as the code behaves: when an event of `biz_id` 1 exists and the insert
does not fail for another reason, the insert returns the duplicate-key error
with a nil result, `purchase` goes on to `result.LastInsertId()` and panics;
the world is left as it was (no call issued, no row changed) and no goroutine
is started. -/
theorem purchase_duplicate_panics (f : Faults) (w : World)
    (hi : f.insertEvent = false)
    (hdup : w.event.any (fun e => e.biz_id == 1) = true) :
    purchase f w = ⟨.panicked, w, none⟩ := by
  simp [purchase, insertEvent, hi, hdup, isDup]

theorem purchase_duplicate_panics_witness :
    purchase noFaults ⟨[⟨1, 1, marshal ⟨1, 1, 10, 1⟩, statusConfirmed⟩], none, [], []⟩ =
      ⟨.panicked, ⟨[⟨1, 1, marshal ⟨1, 1, 10, 1⟩, statusConfirmed⟩], none, [], []⟩, none⟩ :=
  purchase_duplicate_panics noFaults
    ⟨[⟨1, 1, marshal ⟨1, 1, 10, 1⟩, statusConfirmed⟩], none, [], []⟩ rfl rfl

/-- Decoding a marshalled payload into an `event` changes no field and
returns no error: none of its keys names a field of `event`. -/
theorem unmarshalEvent_marshal (b : bizData) (ev : event) :
    unmarshalEvent (marshal b) ev = (false, ev) := by
  have h1 : keyMatches "OrderID" "ID" = false := by decide
  have h2 : keyMatches "OrderID" "Status" = false := by decide
  have h3 : keyMatches "OrderID" "BizData" = false := by decide
  have h4 : keyMatches "ItemID" "ID" = false := by decide
  have h5 : keyMatches "ItemID" "Status" = false := by decide
  have h6 : keyMatches "ItemID" "BizData" = false := by decide
  have h7 : keyMatches "Price" "ID" = false := by decide
  have h8 : keyMatches "Price" "Status" = false := by decide
  have h9 : keyMatches "Price" "BizData" = false := by decide
  have h10 : keyMatches "UserID" "ID" = false := by decide
  have h11 : keyMatches "UserID" "Status" = false := by decide
  have h12 : keyMatches "UserID" "BizData" = false := by decide
  simp [unmarshalEvent, marshal, unmarshalMember, h1, h2, h3, h4, h5, h6, h7, h8, h9, h10,
    h11, h12]

/-- C7, as the code behaves: for a row with id 1 and any payload `b`, the scan
returns an `event` whose `ID` is 0, and `handleEvent` (with no failing attempt
scheduled) sends the zero payload, not `b`: for status init it posts cancel to
the account and to the item participant, for status tried it posts confirm to
the account participant twice and never to the item participant; in both cases
the status update addresses id 0, so the row keeps its status. -/
theorem handleEvent_ignores_row (b : bizData) :
    doFindEvents 0 ⟨[⟨1, b.OrderID, marshal b, statusInit⟩], none, [], []⟩ =
      [⟨0, statusInit, marshal b⟩] ∧
    handleEvent ⟨0, statusInit, marshal b⟩
        ⟨[⟨1, b.OrderID, marshal b, statusInit⟩], none, [], []⟩ =
      (.returned, ⟨[⟨1, b.OrderID, marshal b, statusInit⟩], none,
        [.cancelAccount ⟨0, 0, 0, 0⟩, .cancelItem ⟨0, 0, 0, 0⟩], []⟩) ∧
    doFindEvents 0 ⟨[⟨1, b.OrderID, marshal b, statusTried⟩], none, [], []⟩ =
      [⟨0, statusTried, marshal b⟩] ∧
    handleEvent ⟨0, statusTried, marshal b⟩
        ⟨[⟨1, b.OrderID, marshal b, statusTried⟩], none, [], []⟩ =
      (.returned, ⟨[⟨1, b.OrderID, marshal b, statusTried⟩], none,
        [.confirmAccount ⟨0, 0, 0, 0⟩, .confirmAccount ⟨0, 0, 0, 0⟩], []⟩) := by
  refine ⟨?_, ?_, ?_, ?_⟩
  · simp [doFindEvents, scanRows]
  · simp [handleEvent, doHandleEvent, unmarshalEvent_marshal, cancel2Success,
      cancelAccount2Success, cancelItem2Success, setEventStatus2Success, nextFailures,
      retryLoop, post, updateStatus]
  · simp [doFindEvents, scanRows]
  · simp [handleEvent, doHandleEvent, unmarshalEvent_marshal, confirm2Success,
      confirmAccount2Success, confirmItem2Success, setEventStatus2Success, nextFailures,
      retryLoop, post, updateStatus, statusTried, statusInit]

/-! ## The recovery loop keeps ids and offset until it stores the new offset -/

theorem SameKeys.refl (w : World) : SameKeys w w := ⟨rfl, rfl⟩

theorem SameKeys.trans {w v u : World} (h1 : SameKeys w v) (h2 : SameKeys v u) :
    SameKeys w u :=
  ⟨h2.1.trans h1.1, h2.2.trans h1.2⟩

theorem sameKeys_post (c : Call) (w : World) : SameKeys w (post c w) := ⟨rfl, rfl⟩

theorem sameKeys_updateStatus (st : status) (id : Int) (w : World) :
    SameKeys w (updateStatus st id w) := by
  refine ⟨?_, rfl⟩
  simp only [updateStatus, ids, List.map_map]
  apply List.map_congr_left
  intro e _
  simp only [Function.comp_apply]
  split_ifs <;> rfl

theorem sameKeys_retryLoop (failed ok : World → World)
    (hf : ∀ w, SameKeys w (failed w)) (ho : ∀ w, SameKeys w (ok w)) (n : Nat) (w : World) :
    SameKeys w (retryLoop failed ok n w) :=
  retryLoop_preserves (fun v => SameKeys w v) failed ok
    (fun v h => h.trans (hf v)) (fun v h => h.trans (ho v)) n w (SameKeys.refl w)

theorem sameKeys_scheduled (failed ok : World → World)
    (hf : ∀ w, SameKeys w (failed w)) (ho : ∀ w, SameKeys w (ok w)) (w : World) :
    SameKeys w (retryLoop failed ok (nextFailures w).1 (nextFailures w).2) :=
  SameKeys.trans (show SameKeys w (nextFailures w).2 from ⟨rfl, rfl⟩)
    (sameKeys_retryLoop failed ok hf ho _ _)

theorem sameKeys_cancel2Success (id : Int) (b : bizData) (w : World) :
    SameKeys w (cancel2Success id b w) := by
  unfold cancel2Success setEventStatus2Success cancelItem2Success cancelAccount2Success
  refine ((sameKeys_scheduled _ _ (sameKeys_post _) (sameKeys_post _) w).trans
    (sameKeys_scheduled _ _ (sameKeys_post _) (sameKeys_post _) _)).trans
    (sameKeys_scheduled _ _ (fun v => SameKeys.refl v) (sameKeys_updateStatus _ _) _)

theorem sameKeys_confirm2Success (id : Int) (b : bizData) (w : World) :
    SameKeys w (confirm2Success id b w) := by
  unfold confirm2Success setEventStatus2Success confirmItem2Success confirmAccount2Success
  refine ((sameKeys_scheduled _ _ (sameKeys_post _) (sameKeys_post _) w).trans
    (sameKeys_scheduled _ _ (sameKeys_post _) (sameKeys_post _) _)).trans
    (sameKeys_scheduled _ _ (fun v => SameKeys.refl v) (sameKeys_updateStatus _ _) _)

/-- On an event scanned from a well-formed row `handleEvent` returns, and it
changes neither the row ids nor the stored offset. -/
theorem handleEvent_returns {ev : event} (hev : WellFormedEvent ev) (w : World) :
    ∃ v, handleEvent ev w = (.returned, v) ∧ SameKeys w v := by
  obtain ⟨⟨b, hb⟩, hst⟩ := hev
  unfold handleEvent doHandleEvent
  rw [hb, unmarshalEvent_marshal]
  simp only []
  rcases hst with h | h | h | h
  · exact ⟨cancel2Success ev.ID ⟨0, 0, 0, 0⟩ w, by simp [h],
      sameKeys_cancel2Success _ _ w⟩
  · exact ⟨confirm2Success ev.ID ⟨0, 0, 0, 0⟩ w, by simp [h, statusTried, statusInit],
      sameKeys_confirm2Success _ _ w⟩
  · exact ⟨w, by simp [h, statusCanceled, statusTried, statusInit, statusConfirmed],
      SameKeys.refl w⟩
  · exact ⟨w, by simp [h, statusTried, statusInit, statusConfirmed], SameKeys.refl w⟩

theorem handleEvents_returns (events : List event) :
    ∀ (w : World), (∀ ev ∈ events, WellFormedEvent ev) →
      ∃ v, handleEvents events w = (.returned, v) ∧ SameKeys w v := by
  induction events with
  | nil => intro w _; exact ⟨w, rfl, SameKeys.refl w⟩
  | cons ev rest ih =>
    intro w hwf
    obtain ⟨v, hv, hk⟩ := handleEvent_returns (hwf ev (List.mem_cons_self _ _)) w
    obtain ⟨u, hu, hk2⟩ := ih v (fun e he => hwf e (List.mem_cons_of_mem _ he))
    exact ⟨u, by simp [handleEvents, hv, hu], hk.trans hk2⟩

theorem updateOffset_stores (offset : Int) (w : World) :
    (updateOffset offset w).event_scan_offset = some offset ∧
      (updateOffset offset w).event = w.event := by
  simp [updateOffset, nextFailures, retryLoop_id]

/-- In a list of rows with increasing ids that all exceed `O`, the last id is
at least `O` plus the number of rows. -/
theorem offset_add_length_le_last (rows : List EventRow) :
    ∀ (O : Int), rows.Pairwise (fun r s => r.id < s.id) → (∀ r ∈ rows, O < r.id) →
      ∀ last, rows.getLast? = some last → O + (rows.length : Int) ≤ last.id := by
  induction rows with
  | nil => intro O _ _ last h; simp at h
  | cons a t ih =>
    intro O hp hO last hlast
    have ha : O < a.id := hO a (List.mem_cons_self _ _)
    cases t with
    | nil =>
      simp at hlast
      subst hlast
      simp
      omega
    | cons b t' =>
      rw [List.getLast?_cons_cons] at hlast
      have hp' := List.pairwise_cons.mp hp
      have := ih a.id hp'.2 (fun r hr => hp'.1 r hr) last hlast
      simp only [List.length_cons, Nat.cast_add, Nat.cast_one] at this ⊢
      omega

/-- In a list of rows with increasing ids no id exceeds the last one. -/
theorem le_last_of_pairwise {rows : List EventRow} {last r : EventRow}
    (hp : rows.Pairwise (fun r s => r.id < s.id)) (hlast : rows.getLast? = some last)
    (hr : r ∈ rows) : r.id ≤ last.id := by
  obtain ⟨ys, rfl⟩ := List.getLast?_eq_some_iff.mp hlast
  rcases List.mem_append.mp hr with h | h
  · exact le_of_lt ((List.pairwise_append.mp hp).2.2 r h last (List.mem_singleton_self _))
  · rw [List.mem_singleton.mp h]

theorem scanRows_pairwise {w : World} (O : Int)
    (hp : w.event.Pairwise (fun r s => r.id < s.id)) :
    (scanRows O w).Pairwise (fun r s => r.id < s.id) :=
  ((hp.filter _).sublist (List.take_sublist _ _))

theorem mem_scanRows {w : World} {O : Int} {r : EventRow} (hr : r ∈ scanRows O w) :
    r ∈ w.event ∧ O < r.id := by
  have := List.mem_filter.mp (List.mem_of_mem_take hr)
  exact ⟨this.1, by simpa using this.2⟩

/-- C8, amended: for an event table in id order, one pass of the recovery loop
over a non-empty batch of well-formed rows stores the offset
`O + len(batch)` and leaves the ids alone; that offset is at most the highest
id of the batch, so every row with id above `O` that was not in the batch has
an id above the stored offset (the next scan skips none); and when the ids of
the batch are `O + 1, ..., O + len(batch)` the stored offset equals the highest
id and no row of the batch has an id above it (none is scanned again). -/
theorem recover_offset_le_highest_id (w : World) (O : Int) (batch : List EventRow)
    (hO : O = findOffset w) (hb : batch = scanRows O w)
    (hsorted : w.event.Pairwise (fun r s => r.id < s.id))
    (hwf : ∀ r ∈ batch, WellFormed r) (hne : batch ≠ []) :
    ∃ v last, recoverIteration w = .next v ∧ batch.getLast? = some last ∧
      v.event_scan_offset = some (O + (batch.length : Int)) ∧
      ids v.event = ids w.event ∧
      O + (batch.length : Int) ≤ last.id ∧
      (∀ r ∈ w.event, O < r.id → r ∉ batch → O + (batch.length : Int) < r.id) ∧
      (ids batch = (List.range batch.length).map (fun (i : Nat) => O + 1 + (i : Int)) →
        O + (batch.length : Int) = last.id ∧
        ∀ r ∈ batch, r.id ≤ O + (batch.length : Int)) := by
  have hpw : batch.Pairwise (fun r s => r.id < s.id) := hb ▸ scanRows_pairwise O hsorted
  have hgt : ∀ r ∈ batch, O < r.id := fun r hr => (mem_scanRows (hb ▸ hr)).2
  obtain ⟨last, hlast⟩ : ∃ last, batch.getLast? = some last := by
    cases h : batch.getLast? with
    | none => exact absurd (List.getLast?_eq_none_iff.mp h) hne
    | some l => exact ⟨l, rfl⟩
  have hle : O + (batch.length : Int) ≤ last.id :=
    offset_add_length_le_last batch O hpw hgt last hlast
  have hevents : ∀ ev ∈ findEvents O w, WellFormedEvent ev := by
    intro ev hev
    simp only [findEvents, doFindEvents, List.mem_map] at hev
    obtain ⟨r, hr, rfl⟩ := hev
    exact hwf r (hb ▸ hr)
  have hlen : (findEvents O w).length = batch.length := by
    simp [findEvents, doFindEvents, hb]
  obtain ⟨u, hu, hk⟩ := handleEvents_returns (findEvents O w) w hevents
  have hlen0 : ¬ (findEvents O w).length = 0 := by
    rw [hlen]
    exact fun h => hne (List.length_eq_zero.mp h)
  refine ⟨updateOffset (O + (batch.length : Int)) u, last, ?_, hlast, ?_, ?_, hle, ?_, ?_⟩
  · have hn : batch.length ≠ 0 := fun h => hne (List.length_eq_zero.mp h)
    unfold recoverIteration
    simp only [← hO, hu, hlen, hn, if_false]
  · exact (updateOffset_stores _ u).1
  · rw [(updateOffset_stores _ u).2]
    exact hk.1
  · intro r hr hOr hnot
    have hfil : r ∈ w.event.filter (fun r => decide (r.id > O)) :=
      List.mem_filter.mpr ⟨hr, by simpa using hOr⟩
    rw [← List.take_append_drop 1000 (w.event.filter (fun r => decide (r.id > O)))] at hfil
    have hsplit := hsorted.filter (fun r => decide (r.id > O))
    rw [← List.take_append_drop 1000 (w.event.filter (fun r => decide (r.id > O)))] at hsplit
    rcases List.mem_append.mp hfil with h | h
    · exact absurd (hb ▸ h) hnot
    · have hl : last ∈ List.take 1000 (w.event.filter (fun r => decide (r.id > O))) := by
        have := List.mem_of_getLast?_eq_some hlast
        rw [hb] at this
        exact this
      have := (List.pairwise_append.mp hsplit).2.2 last hl r h
      omega
  · intro hcontig
    have hlastid : (ids batch).getLast? = some last.id := by
      simp [ids, hlast]
    rw [hcontig, List.getLast?_map, List.getLast?_range] at hlastid
    have hn : batch.length ≠ 0 := fun h => hne (List.length_eq_zero.mp h)
    simp only [hn, if_false, Option.map_some', Option.some.injEq] at hlastid
    have heq : O + (batch.length : Int) = last.id := by omega
    exact ⟨heq, fun r hr => heq ▸ le_last_of_pairwise hpw hlast hr⟩

theorem recover_offset_le_highest_id_witness :
    ∃ v last,
      recoverIteration ⟨[⟨1, 1, marshal ⟨1, 1, 10, 1⟩, statusConfirmed⟩], none, [], []⟩ =
        .next v ∧
      [(⟨1, 1, marshal ⟨1, 1, 10, 1⟩, statusConfirmed⟩ : EventRow)].getLast? = some last ∧
      v.event_scan_offset = some (0 + (1 : Int)) ∧ (0 : Int) + 1 ≤ last.id := by
  obtain ⟨v, last, h1, h2, h3, _, h5, _⟩ :=
    recover_offset_le_highest_id
      ⟨[⟨1, 1, marshal ⟨1, 1, 10, 1⟩, statusConfirmed⟩], none, [], []⟩ 0
      [⟨1, 1, marshal ⟨1, 1, 10, 1⟩, statusConfirmed⟩] rfl (by decide)
      (by simp)
      (by
        intro r hr
        rw [List.mem_singleton.mp hr]
        exact ⟨⟨_, rfl⟩, Or.inr (Or.inr (Or.inr rfl))⟩)
      (by simp)
  exact ⟨v, last, h1, h2, h3, h5⟩

/-- C8 fails as stated: with a single event of id 3 and no stored offset, one
pass of the recovery loop scans that event and stores the offset 0 + 1 = 1,
not 3, the highest id of the batch; the next scan (`id > 1`) returns the same
event again. -/
theorem recover_offset_below_highest_id :
    recoverIteration ⟨[⟨3, 1, marshal ⟨1, 1, 10, 1⟩, statusConfirmed⟩], none, [], []⟩ =
      .next ⟨[⟨3, 1, marshal ⟨1, 1, 10, 1⟩, statusConfirmed⟩], some 1, [], []⟩ ∧
    ids (scanRows 0 ⟨[⟨3, 1, marshal ⟨1, 1, 10, 1⟩, statusConfirmed⟩], none, [], []⟩) = [3] ∧
    ids (scanRows 1 ⟨[⟨3, 1, marshal ⟨1, 1, 10, 1⟩, statusConfirmed⟩], some 1, [], []⟩) = [3] := by
  decide

end Order
